import Mathlib

/-!
Verification of the `hamburger` read-only accessor library
(`src/hamburger.hpp`): the data model (pairs, config singleton, mining
pools), the fee and reserve lookups, and the `get_rewards` decaying-pool
reward computation, shallowly embedded over the external table state.

Modelling conventions:
* eosio machine integers are `Nat`/`Int` with explicit `% 2 ^ w` where the
  C++ performs a conversion that can wrap (`uint32` elapsed-time
  subtraction, the `int64 + uint64` pool total, the `uint8` fee sum, the
  `int64` reward accumulator).
* The `double` emission arithmetic `weight * 0.005 * newsecs * 1000000` is
  modelled by exact rational arithmetic (`Rat`); every concrete input a
  theorem below evaluates it at was checked to make the binary32/binary64
  computation of the source exact (elapsed time `0`, or `2 ^ 31` with
  weight `1`), so the rational value and the floating-point value agree
  there.  The truncating `double → uint64` cast is `Rat.floor` followed by
  `Int.toNat`.
* The multi-index tables keyed by primary key are modelled as lookup
  functions `Nat → Option row`; the singleton as `Option global_row` with
  `get_or_default` as `Option.getD` of the default instance.
* The C++ allocation loop `while(times--)` terminates only for
  `times ≥ 0` (a negative count underflows); the embedding therefore takes
  `Int.toNat` of the chunk count, which agrees with the source on the
  spec's stated domain of non-negative asset amounts.
-/

/-- eosio `symbol`: a currency code together with a decimal precision. -/
structure symbol where
  code : String
  precision : Nat
  deriving DecidableEq, Repr

/-- eosio `asset`: a signed 64-bit amount tagged with its symbol. -/
structure asset where
  amount : Int
  symbol : symbol
  deriving DecidableEq, Repr

/-- eosio `extended_symbol`: a symbol plus the token contract account. -/
structure extended_symbol where
  sym : symbol
  contract : String
  deriving DecidableEq, Repr

/-- `pairs_row` of `hamburger.hpp`: one liquidity pair of the swap. -/
structure pairs_row where
  id : Nat
  code : String
  token0 : extended_symbol
  token1 : extended_symbol
  reserve0 : asset
  reserve1 : asset
  total_liquidity : Nat
  last_update_time : Nat
  created_time : Nat
  deriving DecidableEq, Repr

/-- `global_row` of `hamburger.hpp`: the config singleton, with the
in-struct default values `contract_status = 1`, `mine_status = 1`,
`trade_fee = 20`, `protocol_fee = 10` (all `uint8`). -/
structure global_row where
  contract_status : Nat := 1
  mine_status : Nat := 1
  trade_fee : Nat := 20
  protocol_fee : Nat := 10
  deriving DecidableEq, Repr

/-- `deposits_row` of `hamburger.hpp` (unused by the accessors). -/
structure deposits_row where
  owner : String
  quantity0 : asset
  quantity1 : asset
  deriving DecidableEq, Repr

/-- `pools_row` of `hamburger.hpp`: per-pair HBG mining state.  The
`double_t weight` is modelled as a rational. -/
structure pools_row where
  pair_id : Nat
  weight : Rat
  balance : asset
  issued : asset
  last_issue_time : Nat
  start_time : Nat
  end_time : Nat
  deriving DecidableEq, Repr

/-- The external backing state the accessors read: the swap contract's
`pairs` table and `config` singleton, and the mining contract's `pools`
table, each keyed lookup returning an optional row. -/
structure HamburgerState where
  pairs : Nat → Option pairs_row
  config : Option global_row
  pools : Nat → Option pools_row

/-- `get_fee` of `hamburger.hpp`: `get_or_default` on the config singleton,
then `trade_fee + protocol_fee` returned as `uint8` (hence `% 256`). -/
def get_fee (config : Option global_row) : Nat :=
  let g := config.getD {}
  (g.trade_fee + g.protocol_fee) % 256

/-- The two abort paths of `get_reserves`: the `_pairs.get` miss
(`"HamburgerLibrary: INVALID_PAIR_ID"`) and the failed `eosio::check`
(`"sort symbol does not match"`). -/
inductive reserves_error where
  | NotFound
  | SymbolMismatch
  deriving DecidableEq, Repr

/-- `get_reserves` of `hamburger.hpp`: look the pair up by `pair_id`
(abort if absent), check one of the two reserve symbols matches `sort`
(abort otherwise), then return the reserves with the `sort` one first. -/
def get_reserves (st : HamburgerState) (pair_id : Nat) (sort : symbol) :
    Except reserves_error (asset × asset) :=
  match st.pairs pair_id with
  | none => Except.error reserves_error.NotFound
  | some p =>
    if p.reserve0.symbol = sort ∨ p.reserve1.symbol = sort then
      if sort = p.reserve0.symbol then Except.ok (p.reserve0, p.reserve1)
      else Except.ok (p.reserve1, p.reserve0)
    else Except.error reserves_error.SymbolMismatch

/-- The `float newsecs = current_time_point().sec_since_epoch() -
poolit->last_issue_time` subtraction: both operands are `uint32`, so the
difference wraps modulo `2 ^ 32` (no clamping in the source). -/
def elapsed32 (now last : Nat) : Nat :=
  (now % 2 ^ 32 + (2 ^ 32 - last % 2 ^ 32)) % 2 ^ 32

/-- `uint64_t newhbg = poolit->weight * 0.005 * newsecs * 1000000`, the
emission step, with the `double` arithmetic taken exactly (see the file
header) and the truncating cast to `uint64` as floor-then-clamp. -/
def newhbg (weight : Rat) (newsecs : Nat) : Nat :=
  (⌊weight * (5 / 1000) * (newsecs : Rat) * 1000000⌋).toNat

/-- Conversion of a signed value to `uint64`, as in
`auto total = poolit->balance.amount + newhbg` where the `int64` balance
is converted to `uint64` by the usual arithmetic conversions. -/
def toUInt64Nat (i : Int) : Nat :=
  (i % (2 : Int) ^ 64).toNat

/-- Reinterpretation of a `uint64` value as `int64` (two's complement),
as when `res.amount += mined` stores the `uint64` sum back into the
`int64` amount field. -/
def toInt64 (n : Nat) : Int :=
  ((n : Int) + 2 ^ 63) % 2 ^ 64 - 2 ^ 63

/-- The allocation loop of `get_rewards`, counted by the remaining
iterations: `while(times--){ auto mined = total/10000; total -= mined;
res.amount += mined; }`.  Returns the final `(total, res)`. -/
def allocLoop : Nat → Nat → Nat → Nat × Nat
  | 0, total, res => (total, res)
  | t + 1, total, res => allocLoop t (total - total / 10000) (res + total / 10000)

/-- The pool total `get_rewards` seeds the loop with:
`poolit->balance.amount + newhbg`, computed in `uint64`. -/
def poolTotal0 (pool : pools_row) (now : Nat) : Nat :=
  toUInt64Nat (pool.balance.amount +
    (newhbg pool.weight (elapsed32 now pool.last_issue_time) : Int))

/-- `get_rewards` of `hamburger.hpp`.  `now` is
`current_time_point().sec_since_epoch()`.  The qualifying leg is `from_`
when its code is `"EOS"`, else `to_`; a non-EOS pair and a missing pool
both yield the zero `HBG` result. -/
def get_rewards (st : HamburgerState) (now : Nat) (pair_id : Nat)
    (from_ to_ : asset) : asset :=
  let res : asset := { amount := 0, symbol := { code := "HBG", precision := 6 } }
  let eos := if from_.symbol.code = "EOS" then from_ else to_
  if eos.symbol.code ≠ "EOS" then res
  else
    match st.pools pair_id with
    | none => res
    | some pool =>
      let times := eos.amount.toNat / 10000
      let total := poolTotal0 pool now
      let out := allocLoop times total 0
      { amount := toInt64 out.2, symbol := { code := "HBG", precision := 6 } }

/-- Modelled from the spec: one unit of the sequential decay allocation —
"take 0.01% of the *current* running total (`running_total / 10000`,
integer floor division) as `mined`, subtract `mined` from
`running_total`, add `mined` to the accumulated reward". -/
def specDecayStep (s : Nat × Nat) : Nat × Nat :=
  (s.1 - s.1 / 10000, s.2 + s.1 / 10000)

/-- Modelled from the spec: the accumulated reward after running the
decay step `units` times, in order, from running total `total0` and
reward `0`. -/
def specSequentialDecay (units total0 : Nat) : Nat :=
  (specDecayStep^[units] (total0, 0)).2

/-! Concrete rows and states used to instantiate the theorems below. -/

/-- The reward symbol `HBG` with 6 decimals. -/
def hbg6 : symbol := { code := "HBG", precision := 6 }

/-- The base symbol `EOS` with 4 decimals. -/
def eos4 : symbol := { code := "EOS", precision := 4 }

/-- A counterparty symbol with 4 decimals. -/
def usdt4 : symbol := { code := "USDT", precision := 4 }

/-- Example symbol `TOKA` of the reserve-ordering test. -/
def tokA : symbol := { code := "TOKA", precision := 4 }

/-- Example symbol `TOKB` of the reserve-ordering test. -/
def tokB : symbol := { code := "TOKB", precision := 4 }

/-- Example mining pool: weight `1.0`, balance `1,000,000` HBG minor
units, `last_issue_time = 1700000000`. -/
def exPool : pools_row :=
  { pair_id := 12, weight := 1, balance := { amount := 1000000, symbol := hbg6 },
    issued := { amount := 0, symbol := hbg6 }, last_issue_time := 1700000000,
    start_time := 0, end_time := 0 }

/-- Example backing state holding only `exPool` at pair id `12`. -/
def exSt : HamburgerState :=
  { pairs := fun _ => none, config := none,
    pools := fun i => if i = 12 then some exPool else none }

/-- Clock-skew pool: `last_issue_time = 3147483648` lies in the future
of the query time `1000000000`, balance `0`, weight `1.0`. -/
def skewPool : pools_row :=
  { pair_id := 7, weight := 1, balance := { amount := 0, symbol := hbg6 },
    issued := { amount := 0, symbol := hbg6 }, last_issue_time := 3147483648,
    start_time := 0, end_time := 0 }

/-- Backing state holding only `skewPool` at pair id `7`. -/
def skewSt : HamburgerState :=
  { pairs := fun _ => none, config := none,
    pools := fun i => if i = 7 then some skewPool else none }

/-- Example liquidity pair: `reserve0 = 100 TOKA`, `reserve1 = 200 TOKB`. -/
def exPair : pairs_row :=
  { id := 1, code := "TOKATOKB",
    token0 := { sym := tokA, contract := "toka.token" },
    token1 := { sym := tokB, contract := "tokb.token" },
    reserve0 := { amount := 100, symbol := tokA },
    reserve1 := { amount := 200, symbol := tokB },
    total_liquidity := 0, last_update_time := 0, created_time := 0 }

/-- Backing state holding only `exPair` at pair id `1`, no pools. -/
def pairSt : HamburgerState :=
  { pairs := fun i => if i = 1 then some exPair else none, config := none,
    pools := fun _ => none }

/-- Pool with zero stored balance queried at `now = last_issue_time`, so
the total available for allocation is zero. -/
def zPool : pools_row :=
  { pair_id := 9, weight := 1, balance := { amount := 0, symbol := hbg6 },
    issued := { amount := 0, symbol := hbg6 }, last_issue_time := 1700000000,
    start_time := 0, end_time := 0 }

/-- Backing state holding only `zPool` at pair id `9`. -/
def zSt : HamburgerState :=
  { pairs := fun _ => none, config := none,
    pools := fun i => if i = 9 then some zPool else none }

/-! Helper lemmas about the allocation loop and the integer
conversions, shared by the claim theorems below. -/

/-- The counted-down allocation loop is the `units`-fold iterate of the
single decay step. -/
theorem allocLoop_iterate (t total res : Nat) :
    allocLoop t total res = specDecayStep^[t] (total, res) := by
  induction t generalizing total res with
  | zero => rfl
  | succ t ih =>
    rw [allocLoop, ih, Function.iterate_succ_apply, specDecayStep]

/-- Each pass of the loop preserves `res + total` (the mined amount is
at most the running total, so the subtraction never truncates). -/
theorem allocLoop_conserv (t total res : Nat) :
    (allocLoop t total res).2 + (allocLoop t total res).1 = res + total := by
  induction t generalizing total res with
  | zero => simp [allocLoop, Nat.add_comm]
  | succ t ih =>
    rw [allocLoop, ih]
    have h := Nat.div_le_self total 10000
    omega

/-- A loop started from running total `0` mines `0` at every step. -/
theorem allocLoop_zero (t res : Nat) : allocLoop t 0 res = (0, res) := by
  induction t generalizing res with
  | zero => rfl
  | succ t ih => rw [allocLoop]; simpa using ih res

/-- `uint64` conversion is the identity on representable values. -/
theorem toUInt64Nat_eq {i : Int} (h0 : 0 ≤ i) (h : i < 2 ^ 64) :
    toUInt64Nat i = i.toNat := by
  unfold toUInt64Nat
  rw [Int.emod_eq_of_lt h0 (by exact_mod_cast h)]

/-- `int64` reinterpretation is the identity below `2 ^ 63`. -/
theorem toInt64_eq {n : Nat} (h : n < 2 ^ 63) : toInt64 n = n := by
  unfold toInt64
  have h1 : ((n : Int) + 2 ^ 63) % 2 ^ 64 = (n : Int) + 2 ^ 63 := by
    apply Int.emod_eq_of_lt <;> omega
  omega

/-- Unfolding of `get_rewards` on a qualifying EOS leg with an existing
pool: the result is the loop's reward, reinterpreted as `int64`. -/
theorem get_rewards_eos_some (st : HamburgerState) (now pid : Nat)
    (from_ to_ : asset) (pool : pools_row)
    (heos : (if from_.symbol.code = "EOS" then from_ else to_).symbol.code = "EOS")
    (hpool : st.pools pid = some pool) :
    get_rewards st now pid from_ to_ =
      { amount := toInt64 (allocLoop
          ((if from_.symbol.code = "EOS" then from_ else to_).amount.toNat / 10000)
          (poolTotal0 pool now) 0).2,
        symbol := { code := "HBG", precision := 6 } } := by
  by_cases hf : from_.symbol.code = "EOS" <;>
    simp only [hf, if_pos, if_neg, ite_true, ite_false] at heos ⊢ <;>
    simp [get_rewards, hf, heos, hpool]

/-- Unfolding of `get_rewards` when the pool lookup misses: whichever
leg qualified, the zero `HBG` result is returned. -/
theorem get_rewards_pool_none_aux (st : HamburgerState) (now pid : Nat)
    (from_ to_ : asset)
    (h : from_.symbol.code = "EOS" ∨ to_.symbol.code = "EOS")
    (hpool : st.pools pid = none) :
    get_rewards st now pid from_ to_ =
      { amount := 0, symbol := { code := "HBG", precision := 6 } } := by
  by_cases hf : from_.symbol.code = "EOS"
  · simp [get_rewards, hf, hpool]
  · have ht : to_.symbol.code = "EOS" := h.resolve_left hf
    simp [get_rewards, hf, ht, hpool]

/-! The claim theorems. -/

/-- C10: conservation invariant of the allocation loop of `get_rewards`:
for every chunk count and every initial pool total, the accumulated
reward plus the remaining running total equals the initial total, and
the reward never exceeds the initial total (totals are `Nat`, so the
remaining total cannot go negative; the per-step fact holds because
every chunk count, in particular every prefix of a longer run, is
covered). -/
theorem allocLoop_conservation (units total : Nat) :
    (allocLoop units total 0).2 + (allocLoop units total 0).1 = total ∧
    (allocLoop units total 0).2 ≤ total := by
  have h := allocLoop_conserv units total 0
  omega

/-- C4 counterexample: a stored configuration with `trade_fee = 200`
and `protocol_fee = 100` makes `get_fee` return `44`, not the plain sum
`300`: the sum is returned through the `uint8` return type. -/
theorem get_fee_overflow_cex :
    get_fee (some ⟨1, 1, 200, 100⟩) ≠ 200 + 100 := by
  decide

/-- C4 (amended): `get_fee` never fails; an uninitialized singleton is
read as the default configuration, giving `30`; in general the stored
`trade_fee + protocol_fee` is returned reduced modulo 256 (`uint8`
return), which is the plain sum whenever that sum is below 256. -/
theorem get_fee_spec :
    get_fee none = 30 ∧
    (∀ config : Option global_row,
      get_fee config =
        ((config.getD {}).trade_fee + (config.getD {}).protocol_fee) % 256) ∧
    (∀ g : global_row, g.trade_fee + g.protocol_fee < 256 →
      get_fee (some g) = g.trade_fee + g.protocol_fee) := by
  refine ⟨by decide, fun config => rfl, fun g h => ?_⟩
  simp [get_fee, Nat.mod_eq_of_lt h]

/-- C4 witness: the amended claim evaluated at the default stored
configuration. -/
theorem get_fee_spec_witness :
    get_fee (some ⟨1, 1, 20, 10⟩) = 20 + 10 :=
  get_fee_spec.2.2 ⟨1, 1, 20, 10⟩ (by decide)

/-- C5: when neither leg's currency code is `"EOS"`, `get_rewards`
returns the zero reward denominated in `HBG` with 6 decimals, in either
leg order and for every backing state. -/
theorem get_rewards_non_eos (st : HamburgerState) (now pid : Nat)
    (from_ to_ : asset)
    (hf : from_.symbol.code ≠ "EOS") (ht : to_.symbol.code ≠ "EOS") :
    get_rewards st now pid from_ to_ =
      { amount := 0, symbol := { code := "HBG", precision := 6 } } := by
  simp [get_rewards, hf, ht]

/-- C5 witness: a `TOKA → TOKB` trade pays nothing. -/
theorem get_rewards_non_eos_witness :
    get_rewards exSt 1700000000 12
      { amount := 100, symbol := tokA } { amount := 200, symbol := tokB } =
      { amount := 0, symbol := { code := "HBG", precision := 6 } } :=
  get_rewards_non_eos exSt 1700000000 12 _ _ (by decide) (by decide)

/-- C6: with an EOS leg but no mining-pool row stored for the pair id,
`get_rewards` still succeeds and returns the zero `HBG` reward. -/
theorem get_rewards_no_pool (st : HamburgerState) (now pid : Nat)
    (from_ to_ : asset)
    (h : from_.symbol.code = "EOS" ∨ to_.symbol.code = "EOS")
    (hpool : st.pools pid = none) :
    get_rewards st now pid from_ to_ =
      { amount := 0, symbol := { code := "HBG", precision := 6 } } :=
  get_rewards_pool_none_aux st now pid from_ to_ h hpool

/-- C6 witness: an `EOS → TOKB` trade on a state with no pools. -/
theorem get_rewards_no_pool_witness :
    get_rewards pairSt 1700000000 1
      { amount := 10000, symbol := eos4 } { amount := 200, symbol := tokB } =
      { amount := 0, symbol := { code := "HBG", precision := 6 } } :=
  get_rewards_no_pool pairSt 1700000000 1 _ _ (Or.inl (by decide)) rfl

/-- C7: when the pool total seeded into the allocation loop (the stored
balance plus the newly emitted units, as `get_rewards` computes it) is
zero, every iteration mines `0 / 10000 = 0` and the total stays `0`
(first conjunct, for every chunk count), so `get_rewards` returns the
zero reward. -/
theorem get_rewards_zero_pool_total :
    (∀ units : Nat, allocLoop units 0 0 = (0, 0)) ∧
    ∀ (st : HamburgerState) (now pid : Nat) (from_ to_ : asset) (pool : pools_row),
      (if from_.symbol.code = "EOS" then from_ else to_).symbol.code = "EOS" →
      st.pools pid = some pool →
      poolTotal0 pool now = 0 →
      get_rewards st now pid from_ to_ =
        { amount := 0, symbol := { code := "HBG", precision := 6 } } := by
  refine ⟨fun units => allocLoop_zero units 0, ?_⟩
  intro st now pid from_ to_ pool heos hpool htotal
  rw [get_rewards_eos_some st now pid from_ to_ pool heos hpool, htotal,
    allocLoop_zero]
  decide

/-- C7 witness: a pool with zero balance queried at its own
`last_issue_time`, traded against with five chunks of EOS. -/
theorem get_rewards_zero_pool_total_witness :
    get_rewards zSt 1700000000 9
      { amount := 50000, symbol := eos4 } { amount := 1, symbol := usdt4 } =
      { amount := 0, symbol := { code := "HBG", precision := 6 } } :=
  get_rewards_zero_pool_total.2 zSt 1700000000 9 _ _ zPool (by decide) rfl
    (by norm_num [poolTotal0, newhbg, elapsed32, toUInt64Nat, zPool, hbg6])

/-- C8: a qualifying EOS leg smaller than one 10,000-minor-unit chunk
gives `units = 0`, the loop body never runs, and the reward is the zero
`HBG` asset, for every pool state. -/
theorem get_rewards_small_trade (st : HamburgerState) (now pid : Nat)
    (from_ to_ : asset)
    (heos : (if from_.symbol.code = "EOS" then from_ else to_).symbol.code = "EOS")
    (h0 : 0 ≤ (if from_.symbol.code = "EOS" then from_ else to_).amount)
    (hlt : (if from_.symbol.code = "EOS" then from_ else to_).amount < 10000) :
    get_rewards st now pid from_ to_ =
      { amount := 0, symbol := { code := "HBG", precision := 6 } } := by
  have hor : from_.symbol.code = "EOS" ∨ to_.symbol.code = "EOS" := by
    by_cases hf : from_.symbol.code = "EOS"
    · exact Or.inl hf
    · exact Or.inr (by simpa [hf] using heos)
  cases hpool : st.pools pid with
  | none => exact get_rewards_pool_none_aux st now pid from_ to_ hor hpool
  | some pool =>
    rw [get_rewards_eos_some st now pid from_ to_ pool heos hpool,
      Nat.div_eq_of_lt (by omega)]
    norm_num [allocLoop, toInt64]

/-- C8 witness: `from = 5000 EOS` (half a chunk) against the example
pool pays nothing. -/
theorem get_rewards_small_trade_witness :
    get_rewards exSt 1700000000 12
      { amount := 5000, symbol := eos4 } { amount := 1, symbol := usdt4 } =
      { amount := 0, symbol := { code := "HBG", precision := 6 } } :=
  get_rewards_small_trade exSt 1700000000 12 _ _ (by decide) (by decide) (by decide)

/-- C1: on every trade whose qualifying leg (the `from` leg when its
code is `"EOS"`, else the `to` leg, as the source's ternary selects it)
is EOS and whose pair has a mining pool, `get_rewards` returns exactly
the spec's sequential decay run for `floor(EOS amount / 10000)` chunks
starting from the pool's balance plus the newly emitted units (the
`uint64` pool total the code seeds the loop with), the accumulated
reward stored through the `int64` amount field; and the spec's
two-chunk example (weight `1.0`, balance `1,000,000`, `last_issue_time
= now`, `from = 20000` EOS minor units) pays exactly `199` minor units
of HBG (`100` then `99`). -/
theorem get_rewards_sequential_decay :
    (∀ (st : HamburgerState) (now pid : Nat) (from_ to_ : asset) (pool : pools_row),
      (if from_.symbol.code = "EOS" then from_ else to_).symbol.code = "EOS" →
      st.pools pid = some pool →
      get_rewards st now pid from_ to_ =
        { amount := toInt64 (specSequentialDecay
            ((if from_.symbol.code = "EOS" then from_ else to_).amount.toNat / 10000)
            (poolTotal0 pool now)),
          symbol := { code := "HBG", precision := 6 } }) ∧
    get_rewards exSt 1700000000 12
      { amount := 20000, symbol := eos4 } { amount := 12345, symbol := usdt4 } =
      { amount := 199, symbol := { code := "HBG", precision := 6 } } := by
  constructor
  · intro st now pid from_ to_ pool heos hpool
    rw [get_rewards_eos_some st now pid from_ to_ pool heos hpool, allocLoop_iterate]
    rfl
  · norm_num [get_rewards, poolTotal0, elapsed32, newhbg, toUInt64Nat, toInt64,
      allocLoop, exSt, exPool, hbg6, eos4, usdt4]

/-- C1 witness: the general refinement statement applied to the example
pool and the two-chunk trade. -/
theorem get_rewards_sequential_decay_witness :
    get_rewards exSt 1700000000 12
      { amount := 20000, symbol := eos4 } { amount := 12345, symbol := usdt4 } =
      { amount := toInt64 (specSequentialDecay (((20000 : Int)).toNat / 10000)
          (poolTotal0 exPool 1700000000)),
        symbol := { code := "HBG", precision := 6 } } :=
  get_rewards_sequential_decay.1 exSt 1700000000 12 _ _ exPool (by decide) rfl

/-- C9: totality of the accessors — `get_fee` always returns a value in
the `uint8` range; the allocation loop run for `t` remaining iterations
is exactly the `t`-fold iterate of the decay step, so it terminates
after exactly `units` iterations; and on a qualifying EOS leg with an
existing pool `get_rewards` always returns the reward reached after
exactly `floor(amount / 10000)` iterations. -/
theorem get_rewards_get_fee_total :
    (∀ config : Option global_row, get_fee config < 256) ∧
    (∀ t total res : Nat, allocLoop t total res = specDecayStep^[t] (total, res)) ∧
    (∀ (st : HamburgerState) (now pid : Nat) (from_ to_ : asset) (pool : pools_row),
      (if from_.symbol.code = "EOS" then from_ else to_).symbol.code = "EOS" →
      st.pools pid = some pool →
      get_rewards st now pid from_ to_ =
        { amount := toInt64 (specDecayStep^[
            (if from_.symbol.code = "EOS" then from_ else to_).amount.toNat / 10000]
            (poolTotal0 pool now, 0)).2,
          symbol := { code := "HBG", precision := 6 } }) := by
  refine ⟨fun config => ?_, allocLoop_iterate, ?_⟩
  · show ((config.getD {}).trade_fee + (config.getD {}).protocol_fee) % 256 < 256
    omega
  · intro st now pid from_ to_ pool heos hpool
    rw [get_rewards_eos_some st now pid from_ to_ pool heos hpool, allocLoop_iterate]

/-- C9 witness: the fee bound on the unset singleton and the iterate
form of the reward on the example pool. -/
theorem get_rewards_get_fee_total_witness :
    get_fee none < 256 ∧
    get_rewards exSt 1700000000 12
      { amount := 20000, symbol := eos4 } { amount := 12345, symbol := usdt4 } =
      { amount := toInt64 (specDecayStep^[(((20000 : Int)).toNat / 10000)]
          (poolTotal0 exPool 1700000000, 0)).2,
        symbol := { code := "HBG", precision := 6 } } :=
  ⟨get_rewards_get_fee_total.1 none,
   get_rewards_get_fee_total.2.2 exSt 1700000000 12 _ _ exPool (by decide) rfl⟩

/-- C3: `get_reserves` fails with `NotFound` exactly when no pair row
exists for the id; given the pair exists, it fails with
`SymbolMismatch` exactly when neither reserve carries the sort symbol,
and otherwise succeeds with the reserve matching the sort symbol first;
the spec's example (`reserve0 = 100 TOKA`, `reserve1 = 200 TOKB`,
sorted by `TOKB`) returns `(200 TOKB, 100 TOKA)`. -/
theorem get_reserves_spec :
    (∀ (st : HamburgerState) (pid : Nat) (sort : symbol),
      (get_reserves st pid sort = Except.error reserves_error.NotFound ↔
        st.pairs pid = none) ∧
      (∀ p : pairs_row, st.pairs pid = some p →
        ((get_reserves st pid sort = Except.error reserves_error.SymbolMismatch) ↔
          (p.reserve0.symbol ≠ sort ∧ p.reserve1.symbol ≠ sort)) ∧
        (p.reserve0.symbol = sort →
          get_reserves st pid sort = Except.ok (p.reserve0, p.reserve1)) ∧
        (p.reserve0.symbol ≠ sort → p.reserve1.symbol = sort →
          get_reserves st pid sort = Except.ok (p.reserve1, p.reserve0)))) ∧
    get_reserves pairSt 1 tokB =
      Except.ok ({ amount := 200, symbol := tokB }, { amount := 100, symbol := tokA }) := by
  constructor
  · intro st pid sort
    cases h : st.pairs pid with
    | none =>
      constructor
      · simp [get_reserves, h]
      · intro p hp
        exact Option.noConfusion hp
    | some p =>
      constructor
      · by_cases h0 : p.reserve0.symbol = sort
        · simp [get_reserves, h, h0]
        · by_cases h1 : p.reserve1.symbol = sort <;>
            simp [get_reserves, h, h0, h1, Ne.symm h0]
      · intro q hq
        injection hq with hpq
        subst hpq
        by_cases h0 : p.reserve0.symbol = sort
        · simp [get_reserves, h, h0]
        · by_cases h1 : p.reserve1.symbol = sort <;>
            simp [get_reserves, h, h0, h1, Ne.symm h0]
  · rfl

/-- C3 witness: the missing pair, the mismatched sort symbol, and a
matching sort symbol, on the example state. -/
theorem get_reserves_spec_witness :
    get_reserves pairSt 2 tokB = Except.error reserves_error.NotFound ∧
    get_reserves pairSt 1 hbg6 = Except.error reserves_error.SymbolMismatch ∧
    get_reserves pairSt 1 tokA =
      Except.ok ({ amount := 100, symbol := tokA }, { amount := 200, symbol := tokB }) :=
  ⟨(get_reserves_spec.1 pairSt 2 tokB).1.mpr rfl,
   ((get_reserves_spec.1 pairSt 1 hbg6).2 exPair rfl).1.mpr ⟨by decide, by decide⟩,
   ((get_reserves_spec.1 pairSt 1 tokA).2 exPair rfl).2.1 (by decide)⟩

/-- C2 (code behaviour at the failing input): with the stored
`last_issue_time = 3147483648` ahead of the clock `now = 1000000000`,
the `uint32` subtraction wraps to `2 ^ 31` seconds instead of clamping
to zero, so the weight-`1.0` pool with stored balance `0` emits
`10737418240000` units and a one-chunk EOS trade is paid `1073741824`
minor units of HBG — while the allocation loop run on the stored
balance alone pays `0` (second conjunct). -/
theorem get_rewards_clock_skew :
    get_rewards skewSt 1000000000 7
      { amount := 10000, symbol := eos4 } { amount := 12345, symbol := usdt4 } =
      { amount := 1073741824, symbol := { code := "HBG", precision := 6 } } ∧
    (allocLoop (((10000 : Int)).toNat / 10000)
      (toUInt64Nat skewPool.balance.amount) 0).2 = 0 := by
  constructor
  · norm_num [get_rewards, poolTotal0, elapsed32, newhbg, toUInt64Nat, toInt64,
      allocLoop, skewSt, skewPool, eos4, usdt4, hbg6]
  · norm_num [allocLoop, toUInt64Nat, skewPool, hbg6]
